import Mathlib

/-!
Verification development for the renovation-contractor materials mutation
engine (Python backend).  The definitions below are shallow embeddings of
the functions in `backend/main.py`, `backend/services/materials_service.py`
and `backend/services/agent_tools.py`; theorems settle the frozen claims
about them.

Modelling conventions:
* Python JSON-like values are the inductive `Jv`; dicts are insertion-ordered
  association lists (`List (String × Jv)`), matching CPython dict semantics
  for the operations the code uses (lookup, ordered update-or-append).
* Python `==` deep equality is the structural Boolean equality `Jv.beq`.
  (Python dict equality is key-order-insensitive and `1 == True`; no
  claim-relevant path exercises those corners.)
* Exceptions are `Except`; an in-place mutating Python function becomes a
  pure function from old state to new state, and callers keep the old state
  on the error paths (the session context managers roll back on exception).
-/

namespace FranceRenov

/-- JSON-like Python value.  Dicts are insertion-ordered assoc lists. -/
inductive Jv where
  | null
  | bool (b : Bool)
  | str (s : String)
  | num (n : Int)
  | arr (elems : List Jv)
  | obj (fields : List (String × Jv))
deriving Repr

mutual

/-- Python deep equality `==` on JSON-like values (structural). -/
def Jv.beq : Jv → Jv → Bool
  | .null, .null => true
  | .bool a, .bool b => a == b
  | .str a, .str b => a == b
  | .num a, .num b => a == b
  | .arr xs, .arr ys => Jv.beqList xs ys
  | .obj fs, .obj gs => Jv.beqFields fs gs
  | _, _ => false

/-- Elementwise deep equality of JSON lists. -/
def Jv.beqList : List Jv → List Jv → Bool
  | [], [] => true
  | x :: xs, y :: ys => Jv.beq x y && Jv.beqList xs ys
  | _, _ => false

/-- Fieldwise deep equality of JSON objects (insertion order respected). -/
def Jv.beqFields : List (String × Jv) → List (String × Jv) → Bool
  | [], [] => true
  | (k, v) :: fs, (l, w) :: gs => k == l && Jv.beq v w && Jv.beqFields fs gs
  | _, _ => false

end

/-- First-match association-list lookup, i.e. Python `d[k]` / `k in d`. -/
def alookup (k : String) : List (String × Jv) → Option Jv
  | [] => none
  | (k', v) :: rest => if k' = k then some v else alookup k rest

/-- Python dict assignment `d[k] = v`: update in place if the key exists
(keeping its position), else append. -/
def dinsert (fields : List (String × Jv)) (k : String) (v : Jv) :
    List (String × Jv) :=
  match fields with
  | [] => [(k, v)]
  | (k', v') :: rest =>
    if k' = k then (k, v) :: rest else (k', v') :: dinsert rest k v

/-- Python truthiness (`if value:`) on JSON-like values. -/
def truthy : Jv → Bool
  | .null => false
  | .bool b => b
  | .str s => s != ""
  | .num n => n != 0
  | .arr xs => !xs.isEmpty
  | .obj fs => !fs.isEmpty

/-- Prefix test on character lists. -/
def startsWithL : List Char → List Char → Bool
  | [], _ => true
  | _ :: _, [] => false
  | a :: as, b :: bs => a == b && startsWithL as bs

/-- Containment test on character lists. -/
def containsL (needle : List Char) : List Char → Bool
  | [] => needle.isEmpty
  | hay@(_ :: rest) => startsWithL needle hay || containsL needle rest

/-- Python substring test `needle in hay`. -/
def substrOf (needle hay : String) : Bool :=
  containsL needle.data hay.data

/-- Python `str.lower()` (ASCII case folding; the identifiers and field
paths the engine compares are ASCII). -/
def pyLower (s : String) : String :=
  String.mk (s.data.map Char.toLower)

/-- Python `str.strip()`: drop leading and trailing whitespace. -/
def pyStrip (s : String) : String :=
  String.mk (((s.data.dropWhile Char.isWhitespace).reverse.dropWhile
    Char.isWhitespace).reverse)

/-- Python `field_path.split('.')` on the character list (structural, so
concrete instances evaluate): `""` yields `[""]`, separators at the ends
yield empty parts. -/
def splitDotAux : List Char → List (List Char)
  | [] => [[]]
  | c :: cs =>
    let rest := splitDotAux cs
    if c = '.' then [] :: rest
    else
      match rest with
      | [] => [[c]]
      | p :: ps => (c :: p) :: ps

/-- Python `field_path.split('.')`. -/
def splitPath (s : String) : List String :=
  (splitDotAux s.data).map String.mk

/-- `main.get_nested_value` on pre-split path parts: walk the parts, and as
soon as the current value is not a dict or the key is absent, return `None`. -/
def get_nested_value : Jv → List String → Jv
  | v, [] => v
  | .obj fs, p :: rest =>
    match alookup p fs with
    | some v => get_nested_value v rest
    | none => Jv.null
  | _, _ :: _ => Jv.null

/-- Whether every segment of the path traverses a dict that has the key
(the complement of the early-`None` condition in `get_nested_value`). -/
def pathPresent : Jv → List String → Bool
  | _, [] => true
  | .obj fs, p :: rest =>
    match alookup p fs with
    | some v => pathPresent v rest
    | none => false
  | _, _ :: _ => false

/-- `main.set_nested_value` on pre-split parts over a dict (`target` is the
item dict): intermediate segments that are absent or non-dict are replaced
by fresh empty dicts, the final segment is assigned. -/
def set_nested_value (fields : List (String × Jv)) :
    List String → Jv → List (String × Jv)
  | [], _ => fields
  | [last], value => dinsert fields last value
  | part :: rest@(_ :: _), value =>
    let child : List (String × Jv) :=
      match alookup part fields with
      | some (.obj fs) => fs
      | _ => []
    dinsert fields part (.obj (set_nested_value child rest value))

/-- `main.normalize_identifier`: `None → ""`, else strip + lowercase. -/
def normalize_identifier (value : Option String) : String :=
  match value with
  | none => ""
  | some s => pyLower (pyStrip s)

/-- One section of the denormalized materials document: the dict keys the
code reads (`section.get("id")`, `section.get("label")`, `section["items"]`,
each item a dict). -/
structure SectionJ where
  id : Option String
  label : Option String
  items : List (List (String × Jv))

/-- The materials document (`data["sections"]`; the `currency` key is never
read or written by the mutation engine). -/
structure MaterialsData where
  sections : List SectionJ

/-- The per-section test in `main.match_section`:
`target in (normalized id, normalized label)`. -/
def sectionMatches (target : String) (s : SectionJ) : Bool :=
  target == normalize_identifier s.id || target == normalize_identifier s.label

/-- `main.match_section`: normalize the identifier; empty → no match; else
return the first section (in list order) whose normalized id or normalized
label equals the target. -/
def match_section (sections : List SectionJ) (identifier : String) :
    Option SectionJ :=
  let target := normalize_identifier (some identifier)
  if target = "" then none
  else sections.find? (sectionMatches target)

/-- Index variant of `match_section`, used to model the in-place mutation of
the matched section inside `data`. -/
def match_section_idx (sections : List SectionJ) (identifier : String) :
    Option Nat :=
  let target := normalize_identifier (some identifier)
  if target = "" then none
  else sections.findIdx? (fun s => sectionMatches target s)

/-- The validator checks of `main.update_cell`, in source order. -/
inductive VCheck where
  | existence
  | noChange
  | arraySanity
  | identityHint
deriving DecidableEq, Repr

/-- The distinct `ValueError` families raised on the update paths. -/
inductive UpdateError where
  | sectionNotFound
  | indexOutOfBounds
  | noChange
  | suspiciousArray
  | productMismatch
  | unknownApprovalField
  | unknownOrderField
  | unknownFieldPath
  | pathIndexError
deriving DecidableEq, Repr

/-- `item.get("product", "")` followed by `.lower()` (the code only ever
stores strings in `product`; a non-string would raise in Python and is
modelled as `""`). -/
def productLower (item : List (String × Jv)) : String :=
  match alookup "product" item with
  | some (.str s) => pyLower s
  | _ => ""

/-- `item.get("product", "")` as the raw product string. -/
def productStr (item : List (String × Jv)) : String :=
  match alookup "product" item with
  | some (.str s) => s
  | _ => ""

/-- The hint test of `update_cell`: `hint.lower() in product or product in
hint.lower()`.  `prodLower` is the already-lowercased product name. -/
def hint_matches (hint : String) (prodLower : String) : Bool :=
  substrOf (pyLower hint) prodLower || substrOf prodLower (pyLower hint)

/-- `if expected_product_hint:` guard plus the mismatch test: `true` when a
truthy hint is supplied and it fails to match. -/
def hintCheckFails (hint : Option String) (prodLower : String) : Bool :=
  match hint with
  | none => false
  | some h => if h = "" then false else !hint_matches h prodLower

/-- The array sanity test of `update_cell`: when both the old and the new
value are lists and the new list is more than one element longer, the edit
is suspicious (`isinstance(..., list)` guards plus the length check). -/
def suspicious_array (old new : Jv) : Bool :=
  match old, new with
  | .arr oldL, .arr newL => decide (newL.length > oldL.length + 1)
  | _, _ => false

/-- Successful-commit payload of the JSON-mode `update_cell`: the mutated
document, the mutated item, and the ingredients the code then passes to
`log_edit`. -/
structure UpdateOk where
  data : MaterialsData
  item : List (String × Jv)
  section_label : String
  product : String
  old_value : Jv

/-- `main.update_cell`, JSON branch (`USE_DATABASE` false): existence
lookup, no-change check, array sanity check, identity-hint check, then the
in-place `set_nested_value` mutation.  The first component is the ordered
list of validator checks whose statements were reached before returning.
`item_index` is a `Nat`; the code's `item_index < 0` test is vacuous here. -/
def update_cell (data : MaterialsData) (section_id : String)
    (item_index : Nat) (field_path : String) (new_value : Jv)
    (hint : Option String) : List VCheck × Except UpdateError UpdateOk :=
  match match_section_idx data.sections section_id with
  | none => ([.existence], .error .sectionNotFound)
  | some sIdx =>
    let sec := data.sections.getD sIdx ⟨none, none, []⟩
    let items := sec.items
    if item_index ≥ items.length then ([.existence], .error .indexOutOfBounds)
    else
      let item := items.getD item_index []
      let parts := splitPath field_path
      let old_value := get_nested_value (.obj item) parts
      if Jv.beq old_value new_value then
        ([.existence, .noChange], .error .noChange)
      else
        if suspicious_array old_value new_value then
          ([.existence, .noChange, .arraySanity], .error .suspiciousArray)
        else if hintCheckFails hint (productLower item) then
          ([.existence, .noChange, .arraySanity, .identityHint],
           .error .productMismatch)
        else
          let newItem := set_nested_value item parts new_value
          let newSec := { sec with items := items.set item_index newItem }
          let newData := { data with sections := data.sections.set sIdx newSec }
          ([.existence, .noChange, .arraySanity, .identityHint],
           .ok { data := newData, item := newItem,
                 section_label := (sec.label).getD section_id,
                 product := productStr newItem, old_value := old_value })

/-- One edit-history entry (`main.log_edit`); the wall-clock timestamp
string is omitted from the model. -/
structure EditEntry where
  section_id : String
  section_label : String
  item_index : Nat
  product : String
  field_path : String
  old_value : Jv
  new_value : Jv
  source : String

/-- `main.log_edit` on an explicit history list: append the entry, then keep
only the last 1000 entries (`history[-1000:]`) when the length exceeds
1000. -/
def log_edit (history : List EditEntry) (entry : EditEntry) :
    List EditEntry :=
  let h := history ++ [entry]
  if h.length > 1000 then h.drop (h.length - 1000) else h

/-- JSON-mode mutable state touched by `update_cell`: the materials document
(`materials.json`) and the edit history (`edit-history.json`). -/
structure World where
  data : MaterialsData
  history : List EditEntry

/-- `main.update_cell` run against the world state: on any validation error
the world is unchanged (the mutation and `log_edit` are only reached after
all checks pass); on success the document is replaced and exactly one ledger
entry is appended via `log_edit`. -/
def update_cell_run (w : World) (section_id : String) (item_index : Nat)
    (field_path : String) (new_value : Jv) (source : String)
    (hint : Option String) :
    World × Except UpdateError (List (String × Jv)) :=
  match (update_cell w.data section_id item_index field_path new_value hint).2 with
  | .error e => (w, .error e)
  | .ok r =>
    let entry : EditEntry :=
      { section_id := section_id, section_label := r.section_label,
        item_index := item_index, product := r.product,
        field_path := field_path, old_value := r.old_value,
        new_value := new_value, source := source }
    ({ data := r.data, history := log_edit w.history entry }, .ok r.item)

/-- Environment outcomes for one call of `main.write_materials_data`:
whether the database mode is on, and whether each underlying write would
succeed. -/
structure WriteEnv where
  use_database : Bool
  dbWriteOk : Bool
  jsonWriteOk : Bool

/-- Observable side effects of one `write_materials_data` call. -/
structure WriteFx where
  dbCommitted : Bool
  jsonAttempted : Bool
  jsonWritten : Bool
  warnedSecondary : Bool
deriving DecidableEq, Repr

/-- Errors propagated out of `write_materials_data`. -/
inductive WriteError where
  | primaryFailed
  | jsonFailedNoDb
deriving DecidableEq, Repr

/-- `main.write_materials_data`: DB first when enabled — a DB failure
re-raises before the JSON write is attempted; a JSON failure after a DB
success is logged only (`db_success` guard) and the call still returns
normally; without DB mode a JSON failure re-raises. -/
def write_materials_data (env : WriteEnv) : WriteFx × Except WriteError Unit :=
  if env.use_database then
    if !env.dbWriteOk then
      (⟨false, false, false, false⟩, .error .primaryFailed)
    else if env.jsonWriteOk then
      (⟨true, true, true, false⟩, .ok ())
    else
      (⟨true, true, false, true⟩, .ok ())
  else
    if env.jsonWriteOk then
      (⟨false, true, true, false⟩, .ok ())
    else
      (⟨false, true, false, false⟩, .error .jsonFailedNoDb)

/-! ## Normalized store (`backend/models.py` rows, as used by
`backend/services/materials_service.py`).

Enum columns are carried as their string codes; `Decimal`/`datetime`
coercions on scalar columns are elided (values are stored as the raw JSON
value the caller supplied), which is faithful for every claim-relevant
path. -/

/-- A `Section` row: `id` (primary key) and `label`. -/
structure SectionRow where
  id : String
  label : String

/-- An `Item` row.  `product` is kept as a raw JSON value because
`update_item_field` assigns `new_value` to it unchecked; the code's
`item.product.lower()` is modelled by `prodLowerOf`. -/
structure ItemRow where
  id : Nat
  section_id : String
  product : Jv
  reference : Jv
  supplier_link : Jv
  labor_type : Option String
  price_ttc : Jv
  price_ht_quote : Jv

/-- An `Approval` row together with its owned `ReplacementURL` rows (so that
deleting the approval deletes them, as the relationship cascade does). -/
structure ApprovalRow where
  item_id : Nat
  role : String
  status : Option String
  note : Jv
  validated_at : Jv
  urls : List Jv

/-- An `Order` row.  `order_date` and `quantity` are assigned raw by
`update_item_field`. -/
structure OrderRow where
  item_id : Nat
  ordered : Bool
  order_date : Jv
  delivery_date : Jv
  delivery_status : Option String
  quantity : Jv

/-- A `Comment` row; the role is `Option` because the code computes it from
`parts[1] if len(parts) > 1 else None`. -/
structure CommentRow where
  item_id : Nat
  role : Option String
  text : Jv

/-- The normalized store. -/
structure Db where
  sections : List SectionRow
  items : List ItemRow
  approvals : List ApprovalRow
  orders : List OrderRow
  comments : List CommentRow

/-- `item.product.lower()` on the modelled raw product value (non-strings
would raise in Python; modelled as `""`). -/
def prodLowerOf (p : Jv) : String :=
  match p with
  | .str s => pyLower s
  | _ => ""

/-- Update the first list element satisfying `p` (SQLAlchemy `.first()`
query followed by attribute mutation). -/
def updateFirst (p : α → Bool) (f : α → α) : List α → List α
  | [] => []
  | x :: xs => if p x then f x :: xs else x :: updateFirst p f xs

/-- Delete the first list element satisfying `p` (`session.delete` of a
`.first()` query result). -/
def removeFirst (p : α → Bool) : List α → List α
  | [] => []
  | x :: xs => if p x then xs else x :: removeFirst p xs

/-- Insertion by ascending `Item.id`. -/
def insertById (x : ItemRow) : List ItemRow → List ItemRow
  | [] => [x]
  | y :: ys => if x.id ≤ y.id then x :: y :: ys else y :: insertById x ys

/-- `sorted(items, key=lambda x: x.id)`. -/
def sortById (l : List ItemRow) : List ItemRow :=
  l.foldr insertById []

/-- `materials_service.map_approval_status_to_enum`: falsy → `None`; else
lowercase and look up in the closed table (unknown strings → `None`). -/
def map_approval_status_to_enum (status : Jv) : Option String :=
  if !truthy status then none
  else
    match status with
    | .str s =>
      match pyLower s with
      | "approved" => some "APPROVED"
      | "alternative" => some "CHANGE_ORDER"
      | "pending" => some "PENDING"
      | "rejected" => some "REJECTED"
      | "supplied_by" => some "SUPPLIED_BY"
      | _ => none
    | _ => none

/-- `materials_service.map_approval_status_from_enum`. -/
def map_approval_status_from_enum (e : Option String) : Jv :=
  match e with
  | some "APPROVED" => .str "approved"
  | some "CHANGE_ORDER" => .str "alternative"
  | some "PENDING" => .str "pending"
  | some "REJECTED" => .str "rejected"
  | some "SUPPLIED_BY" => .str "supplied_by"
  | _ => .null

/-- `materials_service.map_delivery_status_to_enum`. -/
def map_delivery_status_to_enum (status : Jv) : Option String :=
  if !truthy status then none
  else
    match status with
    | .str s =>
      match pyLower s with
      | "pending" => some "PENDING"
      | "ordered" => some "ORDERED"
      | "shipped" => some "SHIPPED"
      | "delivered" => some "DELIVERED"
      | "cancelled" => some "CANCELLED"
      | _ => none
    | _ => none

/-- `materials_service.map_delivery_status_from_enum`. -/
def map_delivery_status_from_enum (e : Option String) : Jv :=
  match e with
  | some "PENDING" => .str "pending"
  | some "ORDERED" => .str "ordered"
  | some "SHIPPED" => .str "shipped"
  | some "DELIVERED" => .str "delivered"
  | some "CANCELLED" => .str "cancelled"
  | _ => .null

/-- `materials_service.map_labor_type_to_enum` (closed French-label table;
unknown or falsy → `None`). -/
def map_labor_type_to_enum (labor : Jv) : Option String :=
  if !truthy labor then none
  else
    match labor with
    | .str s =>
      match s with
      | "Démolition & Dépose" => some "DEMOLITION"
      | "Gros œuvre & structure" => some "STRUCTURAL"
      | "Façade, Couverture & ITE" => some "FACADE"
      | "Menuiseries extérieures" => some "EXTERIOR_JOINERY"
      | "Plâtrerie & ITI" => some "PLASTERING"
      | "Plomberie & CVC" => some "PLUMBING"
      | "Électricité" => some "ELECTRICAL"
      | "Revêtement mur & plafond" => some "WALL_COVERING"
      | "Menuiseries intérieures" => some "INTERIOR_JOINERY"
      | "Espaces verts & Extérieurs" => some "LANDSCAPING"
      | "Révision de prix" => some "PRICE_REVISION"
      | _ => none
    | _ => none

/-- `materials_service.map_labor_type_from_enum`. -/
def map_labor_type_from_enum (e : Option String) : Jv :=
  match e with
  | some "DEMOLITION" => .str "Démolition & Dépose"
  | some "STRUCTURAL" => .str "Gros œuvre & structure"
  | some "FACADE" => .str "Façade, Couverture & ITE"
  | some "EXTERIOR_JOINERY" => .str "Menuiseries extérieures"
  | some "PLASTERING" => .str "Plâtrerie & ITI"
  | some "PLUMBING" => .str "Plomberie & CVC"
  | some "ELECTRICAL" => .str "Électricité"
  | some "WALL_COVERING" => .str "Revêtement mur & plafond"
  | some "INTERIOR_JOINERY" => .str "Menuiseries intérieures"
  | some "LANDSCAPING" => .str "Espaces verts & Extérieurs"
  | some "PRICE_REVISION" => .str "Révision de prix"
  | _ => .null

/-- The role translation used in the approvals/comments branches:
`"contractor" if role_key == "cray" else role_key`. -/
def roleOf (role_key : String) : String :=
  if role_key = "cray" then "contractor" else role_key

/-- `materials_service.update_item_field`: section lookup by exact id, items
of the section sorted by id, index bounds, optional product-hint check, then
dispatch on the dot-split path exactly as the source's if/elif chains do.
Returns the whole store after the session's mutations; the caller commits
only on `.ok`, so an error leaves the store untouched (session rollback). -/
def update_item_field (db : Db) (section_id : String) (item_index : Nat)
    (field_path : String) (new_value : Jv) (hint : Option String) :
    Except UpdateError Db :=
  match db.sections.find? (fun s => s.id == section_id) with
  | none => .error .sectionNotFound
  | some _ =>
    let items := sortById (db.items.filter (fun i => i.section_id == section_id))
    if item_index ≥ items.length then .error .indexOutOfBounds
    else
      let item := items.getD item_index
        ⟨0, section_id, .null, .null, .null, none, .null, .null⟩
      if hintCheckFails hint (prodLowerOf item.product) then
        .error .productMismatch
      else
        let parts := splitPath field_path
        let head := parts.headD ""
        let tail := parts.tail
        if head = "approvals" then
            match tail with
            | [] => .error .pathIndexError
            | role_key :: rest =>
              let role_name := roleOf role_key
              let field : Option String := rest.head?
              let isApp := fun (a : ApprovalRow) =>
                a.item_id == item.id && a.role == role_name
              let approval? := db.approvals.find? isApp
              match field with
              | some "status" =>
                if truthy new_value then
                  let status_enum := map_approval_status_to_enum new_value
                  match approval? with
                  | some _ =>
                    let apps := updateFirst isApp
                      (fun a => { a with status := status_enum }) db.approvals
                    .ok { db with approvals := apps }
                  | none =>
                    let created : ApprovalRow :=
                      ⟨item.id, role_name, status_enum, .null, .null, []⟩
                    .ok { db with approvals := db.approvals ++ [created] }
                else
                  match approval? with
                  | some _ =>
                    .ok { db with approvals := removeFirst isApp db.approvals }
                  | none => .ok db
              | some "note" =>
                match approval? with
                | some _ =>
                  let apps := updateFirst isApp
                    (fun a => { a with note := new_value }) db.approvals
                  .ok { db with approvals := apps }
                | none => .ok db
              | some "validatedAt" =>
                match approval? with
                | some _ =>
                  let va := if truthy new_value then new_value else Jv.null
                  let apps := updateFirst isApp
                    (fun a => { a with validated_at := va }) db.approvals
                  .ok { db with approvals := apps }
                | none => .ok db
              | some "replacementUrls" =>
                match approval? with
                | some _ =>
                  let newUrls :=
                    match new_value with
                    | .arr l => l.filter truthy
                    | _ => []
                  let apps := updateFirst isApp
                    (fun a => { a with urls := newUrls }) db.approvals
                  .ok { db with approvals := apps }
                | none => .ok db
              | _ => .error .unknownApprovalField
          else if head = "order" then
            let field : Option String := tail.head?
            let isOrd := fun (o : OrderRow) => o.item_id == item.id
            let db1 :=
              match db.orders.find? isOrd with
              | some _ => db
              | none =>
                let created : OrderRow := ⟨item.id, false, .null, .null, none, .null⟩
                { db with orders := db.orders ++ [created] }
            match field with
            | some "ordered" =>
              let ords := updateFirst isOrd
                (fun o => { o with ordered := truthy new_value }) db1.orders
              .ok { db1 with orders := ords }
            | some "orderDate" =>
              let ords := updateFirst isOrd
                (fun o => { o with order_date := new_value }) db1.orders
              .ok { db1 with orders := ords }
            | some "delivery" =>
              match new_value with
              | .obj fs =>
                let dDate := (alookup "date" fs).getD .null
                let dStatus := map_delivery_status_to_enum
                  ((alookup "status" fs).getD .null)
                let ords := updateFirst isOrd
                  (fun o => { o with delivery_date := dDate,
                                     delivery_status := dStatus }) db1.orders
                .ok { db1 with orders := ords }
              | _ => .ok db1
            | some "quantity" =>
              let ords := updateFirst isOrd
                (fun o => { o with quantity := new_value }) db1.orders
              .ok { db1 with orders := ords }
            | _ => .error .unknownOrderField
          else if head = "comments" then
            let role_name : Option String := tail.head?.map roleOf
            let isCom := fun (c : CommentRow) =>
              c.item_id == item.id && c.role == role_name
            let comment? := db.comments.find? isCom
            if truthy new_value then
              match comment? with
              | some _ =>
                let coms := updateFirst isCom
                  (fun c => { c with text := new_value }) db.comments
                .ok { db with comments := coms }
              | none =>
                let created : CommentRow := ⟨item.id, role_name, new_value⟩
                .ok { db with comments := db.comments ++ [created] }
            else
              match comment? with
              | some _ => .ok { db with comments := removeFirst isCom db.comments }
              | none => .ok db
          else
            let setItem := fun (f : ItemRow → ItemRow) =>
              let its := updateFirst (fun i => i.id == item.id) f db.items
              Except.ok (ε := UpdateError) { db with items := its }
            if field_path = "product" then
              setItem (fun i => { i with product := new_value })
            else if field_path = "reference" then
              setItem (fun i => { i with reference := new_value })
            else if field_path = "supplierLink" then
              setItem (fun i => { i with supplier_link := new_value })
            else if field_path = "laborType" then
              setItem (fun i => { i with labor_type := map_labor_type_to_enum new_value })
            else if field_path = "price.ttc" then
              setItem (fun i => { i with price_ttc := new_value })
            else if field_path = "price.htQuote" then
              setItem (fun i => { i with price_ht_quote := new_value })
            else
              .error .unknownFieldPath

/-- `item_dict["<outer>"][<key>] = v` for the nested dict assignments of
`item_to_json` (the outer key is always present and a dict there). -/
def setIn (d : List (String × Jv)) (outer key : String) (v : Jv) :
    List (String × Jv) :=
  match alookup outer d with
  | some (.obj fs) => dinsert d outer (.obj (dinsert fs key v))
  | _ => d

/-- The approval sub-dict built inside `materials_service.item_to_json`
(the `validated_at` ISO re-formatting is elided: the stored raw value is
exported). -/
def approval_to_json (a : ApprovalRow) : Jv :=
  .obj [("status", map_approval_status_from_enum a.status),
        ("note", a.note),
        ("validatedAt", a.validated_at),
        ("replacementUrls", .arr a.urls)]

/-- `materials_service.item_to_json`: the base dict in source key order,
then `laborType` appended when present, then the approval/order/comment
rows folded in by nested dict assignment.  (The `chantier` key requires a
project relation, which is outside the mutation engine and not modelled;
`float(...)` price coercion is elided; a comment row whose role is `None`
would live under a Python `None` dict key and is skipped here — no
claim-relevant path creates one.) -/
def item_to_json (db : Db) (item : ItemRow) : List (String × Jv) :=
  let base : List (String × Jv) :=
    [("product", item.product),
     ("reference", item.reference),
     ("supplierLink", item.supplier_link),
     ("price", .obj [("ttc", item.price_ttc), ("htQuote", item.price_ht_quote)]),
     ("approvals", .obj [("client", .obj []), ("cray", .obj [])]),
     ("order", .obj []),
     ("comments", .obj [("client", .null), ("cray", .null)])]
  let base :=
    match item.labor_type with
    | some lt => dinsert base "laborType" (map_labor_type_from_enum (some lt))
    | none => base
  let withApps :=
    (db.approvals.filter (fun a => a.item_id == item.id)).foldl
      (fun d a =>
        let role_key := if a.role == "contractor" then "cray" else a.role
        setIn d "approvals" role_key (approval_to_json a))
      base
  let withOrder :=
    match db.orders.find? (fun o => o.item_id == item.id) with
    | some o =>
      let orderDict : Jv :=
        .obj [("ordered", .bool o.ordered),
              ("orderDate", o.order_date),
              ("delivery", .obj [("date", o.delivery_date),
                                 ("status", map_delivery_status_from_enum o.delivery_status)]),
              ("quantity", o.quantity)]
      dinsert withApps "order" orderDict
    | none => withApps
  (db.comments.filter (fun c => c.item_id == item.id)).foldl
    (fun d c =>
      match c.role with
      | some r => setIn d "comments" (if r == "contractor" then "cray" else r) c.text
      | none => d)
    withOrder

/-- Insertion by ascending `Section.id` (the `order_by(Section.id)` of
`get_materials_dict`). -/
def insertSecById (x : SectionRow) : List SectionRow → List SectionRow
  | [] => [x]
  | y :: ys => if decide (x.id ≤ y.id) then x :: y :: ys else y :: insertSecById x ys

/-- Sections sorted by id. -/
def sortSecById (l : List SectionRow) : List SectionRow :=
  l.foldr insertSecById []

/-- `materials_service.get_materials_dict`: sections ordered by id, each
with its items sorted by item id and exported by `item_to_json`. -/
def get_materials_dict (db : Db) : MaterialsData :=
  { sections := (sortSecById db.sections).map (fun s =>
      { id := some s.id, label := some s.label,
        items := (sortById (db.items.filter (fun i => i.section_id == s.id))).map
          (item_to_json db) }) }

/-- `main.update_cell`, database branch (`USE_DATABASE` true): load the
JSON view from the store, run the inline existence, no-change and
identity-hint validations (there is no array sanity statement on this
branch), then delegate to `update_item_field` and commit on success.  The
first component is the ordered list of validator checks reached; the
post-commit edit logging and best-effort JSON backup write are modelled
elsewhere (`log_edit`, `write_materials_data`). -/
def update_cell_db (db : Db) (section_id : String) (item_index : Nat)
    (field_path : String) (new_value : Jv) (hint : Option String) :
    List VCheck × Except UpdateError Db :=
  let data := get_materials_dict db
  match match_section_idx data.sections section_id with
  | none => ([.existence], .error .sectionNotFound)
  | some sIdx =>
    let sec := data.sections.getD sIdx ⟨none, none, []⟩
    let items := sec.items
    if item_index ≥ items.length then ([.existence], .error .indexOutOfBounds)
    else
      let item := items.getD item_index []
      let parts := splitPath field_path
      let old_value := get_nested_value (.obj item) parts
      if Jv.beq old_value new_value then
        ([.existence, .noChange], .error .noChange)
      else if hintCheckFails hint (productLower item) then
        ([.existence, .noChange, .identityHint], .error .productMismatch)
      else
        match update_item_field db section_id item_index field_path new_value hint with
        | .error e => ([.existence, .noChange, .identityHint], .error e)
        | .ok db' => ([.existence, .noChange, .identityHint], .ok db')

/-! ## Action broker (`backend/services/agent_tools.py`). -/

/-- One entry of the in-memory `_action_store`; the preview payload and SQL
statement/params are opaque here.  Time is modelled as `Nat` ticks. -/
structure StoredAction where
  preview : Jv
  created_at : Nat
  expires_at : Nat
  executed : Bool
  result : Option Jv

/-- The module-level broker state: the keyed `_action_store` plus a counter
of underlying SQL commits actually executed (each committed
`agent_engine.begin()` block counts once). -/
structure ActionStore where
  actions : List (String × StoredAction)
  commits : Nat

/-- Assoc lookup for the action store. -/
def slookup (k : String) : List (String × StoredAction) → Option StoredAction
  | [] => none
  | (k', v) :: rest => if k' = k then some v else slookup k rest

/-- `agent_tools._get_stored_action` at time `now`: missing → `None`;
strictly past `expires_at` → evict the entry and return `None`; else return
it. -/
def get_stored_action (store : ActionStore) (now : Nat) (action_id : String) :
    ActionStore × Option StoredAction :=
  match slookup action_id store.actions with
  | none => (store, none)
  | some a =>
    if now > a.expires_at then
      ({ store with actions := removeFirst (fun kv => kv.1 == action_id) store.actions },
       none)
    else (store, some a)

/-- Result of one `execute_confirmed_action` call. -/
inductive ConfirmResult where
  | invalidOrExpired
  | alreadyExecuted (result : Option Jv)
  | commitFailed
  | success (result : Jv)

/-- `agent_tools.execute_confirmed_action` at time `now`.  `commitOutcome`
stands for what the SQL execution inside the transaction block would
produce for *this* call: `.ok res` is the `{"success": ...}` payload, and
`.error ()` an exception (the transaction rolls back and a `ValueError` is
raised, so nothing is marked executed and no commit counts).  On the first
successful path the action is marked executed with the result cached
(`_mark_action_executed`) and the commit counter increments; an already
executed entry short-circuits to the cached result before any SQL runs. -/
def execute_confirmed_action (store : ActionStore) (now : Nat)
    (action_id : String) (commitOutcome : Except Unit Jv) :
    ActionStore × ConfirmResult :=
  let (store1, found) := get_stored_action store now action_id
  match found with
  | none => (store1, .invalidOrExpired)
  | some a =>
    if a.executed then (store1, .alreadyExecuted a.result)
    else
      match commitOutcome with
      | .error _ => (store1, .commitFailed)
      | .ok res =>
        let acts := updateFirst (fun kv => kv.1 == action_id)
          (fun kv => (kv.1, { kv.2 with executed := true, result := some res }))
          store1.actions
        ({ actions := acts, commits := store1.commits + 1 }, .success res)

/-! ## Concrete fixtures used by counterexamples and witnesses. -/

/-- A section whose id is "a" and label is "b". -/
def secA : SectionJ := ⟨some "a", some "b", []⟩

/-- A section whose id is "b" (an exact-identifier match for "b"). -/
def secB : SectionJ := ⟨some "b", some "c", []⟩

/-- The spec's §8 concrete item: product "beegcat", `reference` null. -/
def itemBeeg : List (String × Jv) :=
  [("product", .str "beegcat"), ("reference", .null)]

/-- One-section materials document holding `itemBeeg`. -/
def dataBeeg : MaterialsData := ⟨[⟨some "kitchen", some "Kitchen", [itemBeeg]⟩]⟩

/-- JSON-mode world with `dataBeeg` and an empty ledger. -/
def worldBeeg : World := ⟨dataBeeg, []⟩

/-- A normalized store: one section "s1", one item "sink" (id 1), a client
approval carrying one replacement URL, and an order with `ordered = true`
and a present order date. -/
def dbK : Db :=
  { sections := [⟨"s1", "Kitchen"⟩],
    items := [⟨1, "s1", .str "sink", .null, .null, none, .null, .null⟩],
    approvals := [⟨1, "client", some "APPROVED", .null, .null, [.str "a"]⟩],
    orders := [⟨1, true, .str "2024-01-01", .null, none, .null⟩],
    comments := [] }

/-- A three-element replacement-URL list (two more than `dbK` holds). -/
def urls3 : Jv := .arr [.str "a", .str "b", .str "c"]

/-- Parametric store with a single order row, for the order-field update
theorems: `flag`/`odate` are the current `ordered` flag and order date. -/
def dbOrd (flag : Bool) (odate : Jv) : Db :=
  { sections := [⟨"s1", "Kitchen"⟩],
    items := [⟨1, "s1", .str "sink", .null, .null, none, .null, .null⟩],
    approvals := [], orders := [⟨1, flag, odate, .null, none, .null⟩],
    comments := [] }

/-- A pending stored action created at tick 10, expiring at tick 310. -/
def act0 : StoredAction := ⟨.str "pv", 10, 310, false, none⟩

/-- Broker state holding `act0` under token "tok", no commits yet. -/
def actStore0 : ActionStore := ⟨[("tok", act0)], 0⟩

/-- The `{"success": true}` result payload of a commit. -/
def resOk : Jv := .obj [("success", .bool true)]

/-! ## Helper lemmas. -/

/-- Looking a key up after `updateFirst` marked that key's entry executed
yields the marked entry. -/
theorem slookup_mark (k : String) (r : Jv) (l : List (String × StoredAction)) :
    slookup k (updateFirst (fun kv => kv.1 == k)
      (fun kv => (kv.1, { kv.2 with executed := true, result := some r })) l)
      = (slookup k l).map
          (fun v => { v with executed := true, result := some r }) := by
  induction l with
  | nil => rfl
  | cons x xs ih =>
    obtain ⟨k', v⟩ := x
    by_cases h : k' = k <;> simp [slookup, updateFirst, h, ih]

/-- Deeply equal JSON lists have equal lengths. -/
theorem Jv.beqList_length {xs ys : List Jv} (h : Jv.beqList xs ys = true) :
    xs.length = ys.length := by
  induction xs generalizing ys with
  | nil =>
    cases ys with
    | nil => rfl
    | cons y ys => simp [Jv.beqList] at h
  | cons x xs ih =>
    cases ys with
    | nil => simp [Jv.beqList] at h
    | cons y ys =>
      simp only [Jv.beqList, Bool.and_eq_true] at h
      simp [ih h.2]

/-! ## Claims. -/

/-- C6: in the dual-representation write, a primary (database) failure
aborts with the propagated error and the secondary (JSON) write is never
attempted; a secondary failure after a successful primary is logged only —
the call returns normally, the primary commit stands, and no error is
surfaced.  (Without database mode there is no primary, and a JSON failure
propagates — the "both failed" branch.) -/
theorem C6_dual_write_policy :
    (∀ jOk : Bool, write_materials_data ⟨true, false, jOk⟩
      = (⟨false, false, false, false⟩, .error .primaryFailed)) ∧
    write_materials_data ⟨true, true, false⟩ = (⟨true, true, false, true⟩, .ok ()) ∧
    write_materials_data ⟨true, true, true⟩ = (⟨true, true, true, false⟩, .ok ()) :=
  ⟨fun _ => rfl, rfl, rfl⟩

/-- C7: the edit ledger is append-only and bounded at 1000: a rejected
mutation leaves the history untouched, a successful commit appends exactly
one entry through `log_edit`, and `log_edit` always returns the most recent
`min (n+1) 1000` entries of the appended list, in order, evicting the
oldest first. -/
theorem C7_ledger_bounded_append :
    (∀ w sid idx path v src hint e,
      (update_cell_run w sid idx path v src hint).2 = .error e →
      (update_cell_run w sid idx path v src hint).1.history = w.history) ∧
    (∀ w sid idx path v src hint,
      ((update_cell_run w sid idx path v src hint).2).isOk = true →
      ∃ entry, (update_cell_run w sid idx path v src hint).1.history
        = log_edit w.history entry) ∧
    (∀ h e, log_edit h e = (h ++ [e]).drop ((h ++ [e]).length - 1000) ∧
      (log_edit h e).length = min (h.length + 1) 1000) := by
  refine ⟨?_, ?_, ?_⟩
  · intro w sid idx path v src hint e h
    unfold update_cell_run at h ⊢
    cases hm : (update_cell w.data sid idx path v hint).2 with
    | error e' => simp [hm]
    | ok r => simp [hm] at h
  · intro w sid idx path v src hint h
    unfold update_cell_run at h ⊢
    cases hm : (update_cell w.data sid idx path v hint).2 with
    | error e' =>
      rw [hm] at h
      simp [Except.isOk, Except.toBool] at h
    | ok r => exact ⟨_, rfl⟩
  · intro h e
    unfold log_edit
    by_cases hl : (h ++ [e]).length > 1000
    · rw [if_pos hl]
      refine ⟨rfl, ?_⟩
      simp only [List.length_drop, List.length_append, List.length_singleton] at *
      omega
    · rw [if_neg hl]
      constructor
      · rw [Nat.sub_eq_zero_of_le (by omega), List.drop_zero]
      · simp only [List.length_append, List.length_singleton] at *
        omega

/-- C7 witness: a committing call appends one entry, a rejected call
appends none, and the bound holds on a concrete overlong history. -/
theorem C7_ledger_bounded_append_witness :
    (update_cell_run worldBeeg "kitchen" 0 "reference" .null "agent" none).1.history
      = worldBeeg.history ∧
    (∃ entry,
      (update_cell_run worldBeeg "kitchen" 0 "reference" (.str "7438") "agent" none).1.history
        = log_edit worldBeeg.history entry) ∧
    (log_edit (List.replicate 1000 ⟨"s", "l", 0, "p", "f", .null, .null, "agent"⟩)
        ⟨"s2", "l", 0, "p", "f", .null, .null, "agent"⟩).length = min (1000 + 1) 1000 := by
  refine ⟨?_, ?_, ?_⟩
  · exact C7_ledger_bounded_append.1 worldBeeg "kitchen" 0 "reference" .null "agent" none
      .noChange rfl
  · exact C7_ledger_bounded_append.2.1 worldBeeg "kitchen" 0 "reference" (.str "7438")
      "agent" none rfl
  · have := (C7_ledger_bounded_append.2.2
      (List.replicate 1000 ⟨"s", "l", 0, "p", "f", .null, .null, "agent"⟩)
      ⟨"s2", "l", 0, "p", "f", .null, .null, "agent"⟩).2
    simpa only [List.length_replicate] using this

/-- C8 counterexample: with sections `[⟨id "a", label "b"⟩, ⟨id "b", label "c"⟩]`
and identifier "b", the lookup returns the *first* section (a label match)
even though the second section is an exact-identifier match, and both
sections match the identifier yet the resolution is silent — refuting both
the id-before-label priority and the no-silent-multiple-match parts of the
claim. -/
theorem C8_counterexample :
    match_section [secA, secB] "b" = some secA ∧
    secB.id = some "b" ∧
    sectionMatches (normalize_identifier (some "b")) secA = true ∧
    sectionMatches (normalize_identifier (some "b")) secB = true :=
  ⟨rfl, rfl, rfl, rfl⟩

/-- C8 amended: section lookup normalizes the identifier (strip +
lowercase); an empty normalized identifier matches nothing; otherwise the
first section in list order whose normalized id *or* normalized label
equals the target is returned — id and label are tested together per
section, so no global id-first pass exists and multiple matches resolve
silently to the earliest. -/
theorem C8_first_match_semantics :
    (∀ ident, match_section [] ident = none) ∧
    (∀ s rest ident,
      match_section (s :: rest) ident =
        if normalize_identifier (some ident) = "" then none
        else if sectionMatches (normalize_identifier (some ident)) s then some s
        else match_section rest ident) := by
  constructor
  · intro ident
    simp [match_section]
  · intro s rest ident
    by_cases hT : normalize_identifier (some ident) = ""
    · simp [match_section, hT]
    · by_cases hs : sectionMatches (normalize_identifier (some ident)) s
      · simp [match_section, hT, hs, List.find?]
      · simp [match_section, hT, hs, List.find?]

/-- C1: for a stored pending action (present, not executed) confirmed while
valid (both confirm times within its TTL), the first confirm executes the
commit — the result payload is returned, the commit counter increments by
exactly one, and the entry is marked executed with the result cached — and
any later confirm of the same token, whatever its own commit outcome
argument, leaves the store untouched (so no further commit) and returns the
cached first result. -/
theorem C1_confirm_idempotent (store : ActionStore) (t1 t2 : Nat) (k : String)
    (a : StoredAction) (r1 : Jv) (o2 : Except Unit Jv)
    (hfind : slookup k store.actions = some a)
    (hpend : a.executed = false)
    (h1 : t1 ≤ a.expires_at) (h2 : t2 ≤ a.expires_at) :
    (execute_confirmed_action store t1 k (.ok r1)).2 = .success r1 ∧
    (execute_confirmed_action store t1 k (.ok r1)).1.commits = store.commits + 1 ∧
    execute_confirmed_action (execute_confirmed_action store t1 k (.ok r1)).1 t2 k o2
      = ((execute_confirmed_action store t1 k (.ok r1)).1,
         .alreadyExecuted (some r1)) := by
  have hnex1 : ¬ t1 > a.expires_at := by omega
  have hnex2 : ¬ t2 > a.expires_at := by omega
  have e1 : execute_confirmed_action store t1 k (.ok r1)
      = ({ actions := updateFirst (fun kv => kv.1 == k)
             (fun kv => (kv.1, { kv.2 with executed := true, result := some r1 }))
             store.actions,
           commits := store.commits + 1 }, .success r1) := by
    unfold execute_confirmed_action get_stored_action
    rw [hfind]
    simp [hnex1, hpend]
  have hl2 : slookup k (execute_confirmed_action store t1 k (.ok r1)).1.actions
      = some { a with executed := true, result := some r1 } := by
    rw [e1]
    simp only [slookup_mark, hfind]
    rfl
  refine ⟨by rw [e1], by rw [e1], ?_⟩
  conv_lhs => rw [execute_confirmed_action, get_stored_action, hl2]
  simp [hnex2]

/-- C1 witness: the concrete broker state `actStore0` confirmed twice. -/
theorem C1_confirm_idempotent_witness :
    (execute_confirmed_action actStore0 20 "tok" (.ok resOk)).2 = .success resOk ∧
    (execute_confirmed_action actStore0 20 "tok" (.ok resOk)).1.commits
      = actStore0.commits + 1 ∧
    execute_confirmed_action (execute_confirmed_action actStore0 20 "tok" (.ok resOk)).1
        30 "tok" (.ok (.str "OTHER"))
      = ((execute_confirmed_action actStore0 20 "tok" (.ok resOk)).1,
         .alreadyExecuted (some resOk)) :=
  C1_confirm_idempotent actStore0 20 30 "tok" act0 resOk (.ok (.str "OTHER"))
    rfl rfl (by decide) (by decide)

/-- Shared helper: in the JSON branch, when the target section and item
exist and the proposed value deep-equals the current one, `update_cell`
stops at the no-change check. -/
theorem update_cell_noop (data : MaterialsData) (sid : String) (idx : Nat)
    (path : String) (v : Jv) (hint : Option String) (i : Nat)
    (hsec : match_section_idx data.sections sid = some i)
    (hidx : idx < ((data.sections.getD i ⟨none, none, []⟩).items).length)
    (hbeq : Jv.beq (get_nested_value
        (.obj ((data.sections.getD i ⟨none, none, []⟩).items.getD idx []))
        (splitPath path)) v = true) :
    update_cell data sid idx path v hint
      = ([.existence, .noChange], .error .noChange) := by
  unfold update_cell
  simp only [hsec]
  rw [if_neg (by omega :
    ¬ idx ≥ ((data.sections.getD i ⟨none, none, []⟩).items).length)]
  rw [if_pos hbeq]

/-- Shared helper: the same fact lifted to the world state — a no-change
rejection leaves the document and the ledger untouched. -/
theorem update_cell_run_noop (w : World) (sid : String) (idx : Nat)
    (path : String) (v : Jv) (src : String) (hint : Option String) (i : Nat)
    (hsec : match_section_idx w.data.sections sid = some i)
    (hidx : idx < ((w.data.sections.getD i ⟨none, none, []⟩).items).length)
    (hbeq : Jv.beq (get_nested_value
        (.obj ((w.data.sections.getD i ⟨none, none, []⟩).items.getD idx []))
        (splitPath path)) v = true) :
    update_cell_run w sid idx path v src hint = (w, .error .noChange) := by
  unfold update_cell_run
  rw [update_cell_noop w.data sid idx path v hint i hsec hidx hbeq]

/-- Shared helper: in the database branch, the inline no-change check stops
the call before `update_item_field` is reached, so nothing is committed. -/
theorem update_cell_db_noop (db : Db) (sid : String) (idx : Nat)
    (path : String) (v : Jv) (hint : Option String) (j : Nat)
    (hsec : match_section_idx (get_materials_dict db).sections sid = some j)
    (hidx : idx <
      (((get_materials_dict db).sections.getD j ⟨none, none, []⟩).items).length)
    (hbeq : Jv.beq (get_nested_value
        (.obj (((get_materials_dict db).sections.getD j ⟨none, none, []⟩).items.getD idx []))
        (splitPath path)) v = true) :
    update_cell_db db sid idx path v hint
      = ([.existence, .noChange], .error .noChange) := by
  unfold update_cell_db
  simp only [hsec]
  rw [if_neg (by omega :
    ¬ idx ≥ (((get_materials_dict db).sections.getD j ⟨none, none, []⟩).items).length)]
  rw [if_pos hbeq]

/-- C3: an update whose new value deep-equals the current value at the
addressed field is rejected with the no-change error on both commit
branches, and the rejected call leaves the stores untouched: the JSON-mode
world (document and ledger) is returned unchanged, and the database branch
stops before `update_item_field`, so the normalized store and the JSON
backup are never written. -/
theorem C3_noop_rejected_store_unchanged
    (w : World) (db : Db) (sid sid2 : String) (idx idx2 : Nat)
    (path path2 : String) (v v2 : Jv) (src : String)
    (hint hint2 : Option String) (i j : Nat)
    (hsec : match_section_idx w.data.sections sid = some i)
    (hidx : idx < ((w.data.sections.getD i ⟨none, none, []⟩).items).length)
    (hbeq : Jv.beq (get_nested_value
        (.obj ((w.data.sections.getD i ⟨none, none, []⟩).items.getD idx []))
        (splitPath path)) v = true)
    (hsec2 : match_section_idx (get_materials_dict db).sections sid2 = some j)
    (hidx2 : idx2 <
      (((get_materials_dict db).sections.getD j ⟨none, none, []⟩).items).length)
    (hbeq2 : Jv.beq (get_nested_value
        (.obj (((get_materials_dict db).sections.getD j ⟨none, none, []⟩).items.getD idx2 []))
        (splitPath path2)) v2 = true) :
    update_cell_run w sid idx path v src hint = (w, .error .noChange) ∧
    update_cell_db db sid2 idx2 path2 v2 hint2
      = ([.existence, .noChange], .error .noChange) :=
  ⟨update_cell_run_noop w sid idx path v src hint i hsec hidx hbeq,
   update_cell_db_noop db sid2 idx2 path2 v2 hint2 j hsec2 hidx2 hbeq2⟩

/-- C3 witness: proposing the current `null` reference for "beegcat"
(JSON mode) and the current `null` reference for "sink" (database mode). -/
theorem C3_noop_rejected_store_unchanged_witness :
    update_cell_run worldBeeg "kitchen" 0 "reference" .null "agent" none
      = (worldBeeg, .error .noChange) ∧
    update_cell_db dbK "s1" 0 "reference" .null none
      = ([.existence, .noChange], .error .noChange) :=
  C3_noop_rejected_store_unchanged worldBeeg dbK "kitchen" "s1" 0 0
    "reference" "reference" .null .null "agent" none none 0 0
    rfl (by decide) rfl rfl (by decide) rfl

/-- C10: the generic nested read is total — whenever some path segment is
missing or a non-dict is traversed, it returns `null` rather than raising —
and consequently proposing `null` for a field whose current value is absent
or `null` is rejected as a no-change error on both branches (so e.g.
nulling an absent approval status never reaches the approval-deletion
cascade in `update_item_field`). -/
theorem C10_nested_read_total_null_noop :
    (∀ t parts, pathPresent t parts = false → get_nested_value t parts = .null) ∧
    (∀ w sid idx path src hint i,
      match_section_idx w.data.sections sid = some i →
      idx < ((w.data.sections.getD i ⟨none, none, []⟩).items).length →
      get_nested_value (.obj ((w.data.sections.getD i ⟨none, none, []⟩).items.getD idx []))
        (splitPath path) = .null →
      update_cell_run w sid idx path .null src hint = (w, .error .noChange)) ∧
    (∀ db sid idx path hint j,
      match_section_idx (get_materials_dict db).sections sid = some j →
      idx < (((get_materials_dict db).sections.getD j ⟨none, none, []⟩).items).length →
      get_nested_value
        (.obj (((get_materials_dict db).sections.getD j ⟨none, none, []⟩).items.getD idx []))
        (splitPath path) = .null →
      update_cell_db db sid idx path .null hint
        = ([.existence, .noChange], .error .noChange)) := by
  refine ⟨?_, ?_, ?_⟩
  · intro t parts
    induction parts generalizing t with
    | nil => intro h; simp [pathPresent] at h
    | cons p rest ih =>
      intro h
      cases t with
      | null => rfl
      | bool b => rfl
      | str s => rfl
      | num n => rfl
      | arr xs => rfl
      | obj fs =>
        simp only [pathPresent] at h
        simp only [get_nested_value]
        cases hl : alookup p fs with
        | none => rfl
        | some v =>
          rw [hl] at h
          exact ih v h
  · intro w sid idx path src hint i hsec hidx hnull
    exact update_cell_run_noop w sid idx path .null src hint i hsec hidx
      (by rw [hnull]; rfl)
  · intro db sid idx path hint j hsec hidx hnull
    exact update_cell_db_noop db sid idx path .null hint j hsec hidx
      (by rw [hnull]; rfl)

/-- C10 witness: a read through an absent key returns `null`; nulling the
absent "beegcat" approval status (JSON mode) and the absent "cray" approval
status of "sink" (database mode) are both rejected as no-change. -/
theorem C10_nested_read_total_null_noop_witness :
    get_nested_value (.obj []) ["x"] = .null ∧
    update_cell_run worldBeeg "kitchen" 0 "approvals.client.status" .null "agent" none
      = (worldBeeg, .error .noChange) ∧
    update_cell_db dbK "s1" 0 "approvals.cray.status" .null none
      = ([.existence, .noChange], .error .noChange) :=
  ⟨C10_nested_read_total_null_noop.1 (.obj []) ["x"] rfl,
   C10_nested_read_total_null_noop.2.1 worldBeeg "kitchen" 0
     "approvals.client.status" "agent" none 0 rfl (by decide) rfl,
   C10_nested_read_total_null_noop.2.2 dbK "s1" 0 "approvals.cray.status"
     none 0 rfl (by decide) rfl⟩

/-- C2 counterexample: in database mode, growing the "sink" item's
replacement-URL list from one to three elements passes validation and
commits, and the trace of validator checks reached contains no array
sanity check — while the JSON-mode validator rejects the very same
mutation as a suspicious array edit.  So the database commit path omits
one of the four checks, refuting "no commit path omits or reorders a
check". -/
theorem C2_counterexample :
    ((update_cell_db dbK "s1" 0 "approvals.client.replacementUrls" urls3 none).2).isOk
      = true ∧
    (update_cell_db dbK "s1" 0 "approvals.client.replacementUrls" urls3 none).1
      = [VCheck.existence, VCheck.noChange, VCheck.identityHint] ∧
    VCheck.arraySanity ∉
      (update_cell_db dbK "s1" 0 "approvals.client.replacementUrls" urls3 none).1 ∧
    (update_cell (get_materials_dict dbK) "s1" 0
        "approvals.client.replacementUrls" urls3 none).2
      = .error .suspiciousArray := by
  refine ⟨rfl, rfl, ?_, rfl⟩
  have ht : (update_cell_db dbK "s1" 0 "approvals.client.replacementUrls" urls3 none).1
      = [VCheck.existence, VCheck.noChange, VCheck.identityHint] := rfl
  rw [ht]
  decide

/-- C2 amended: every committing call of the JSON-mode `update_cell` has
run exactly the four validator checks in the claimed order (existence,
no-change, array sanity, identity hint) before the mutation; every
committing call of the database-mode branch has run existence, no-change
and identity hint in that order, but omits the array sanity check. -/
theorem C2_commit_path_checks :
    (∀ data sid idx path v hint,
      ((update_cell data sid idx path v hint).2).isOk = true →
      (update_cell data sid idx path v hint).1
        = [VCheck.existence, VCheck.noChange, VCheck.arraySanity,
           VCheck.identityHint]) ∧
    (∀ db sid idx path v hint,
      ((update_cell_db db sid idx path v hint).2).isOk = true →
      (update_cell_db db sid idx path v hint).1
        = [VCheck.existence, VCheck.noChange, VCheck.identityHint]) := by
  constructor
  · intro data sid idx path v hint
    simp only [update_cell]
    cases hm : match_section_idx data.sections sid with
    | none => simp [Except.isOk, Except.toBool]
    | some i =>
      simp only []
      split_ifs <;> simp [Except.isOk, Except.toBool]
  · intro db sid idx path v hint
    simp only [update_cell_db]
    cases hm : match_section_idx (get_materials_dict db).sections sid with
    | none => simp [Except.isOk, Except.toBool]
    | some i =>
      simp only []
      split_ifs <;>
        first
        | (simp [Except.isOk, Except.toBool]; done)
        | (cases update_item_field db sid idx path v hint <;>
            simp [Except.isOk, Except.toBool])

/-- C2 amended witness: the committing "beegcat" reference update (JSON
mode) ran all four checks; the committing "sink" reference update
(database mode) ran the three checks of that branch. -/
theorem C2_commit_path_checks_witness :
    (update_cell dataBeeg "kitchen" 0 "reference" (.str "7438") none).1
      = [VCheck.existence, VCheck.noChange, VCheck.arraySanity,
         VCheck.identityHint] ∧
    (update_cell_db dbK "s1" 0 "reference" (.str "r1") none).1
      = [VCheck.existence, VCheck.noChange, VCheck.identityHint] :=
  ⟨C2_commit_path_checks.1 dataBeeg "kitchen" 0 "reference" (.str "7438") none rfl,
   C2_commit_path_checks.2 dbK "s1" 0 "reference" (.str "r1") none rfl⟩

/-- JSON-mode item "sink" carrying one replacement URL under the client
approval. -/
def itemSinkJ : List (String × Jv) :=
  [("product", .str "sink"),
   ("approvals", .obj [("client", .obj [("replacementUrls", .arr [.str "a"])])])]

/-- One-section materials document holding `itemSinkJ`. -/
def dataSinkJ : MaterialsData := ⟨[⟨some "s1", some "Kitchen", [itemSinkJ]⟩]⟩

/-- C4: when the current value at the addressed field is a list and the
proposed value is a list, the JSON-mode update is rejected as a suspicious
array edit whenever the new length exceeds the old length plus one, and is
accepted (no hint supplied) whenever the new length is the old length, the
old length plus one, or the old length minus one, provided the lists
differ. -/
theorem C4_array_bound
    (data : MaterialsData) (sid : String) (idx : Nat) (path : String)
    (oldL newL : List Jv) (i : Nat)
    (hsec : match_section_idx data.sections sid = some i)
    (hidx : idx < ((data.sections.getD i ⟨none, none, []⟩).items).length)
    (hold : get_nested_value
        (.obj ((data.sections.getD i ⟨none, none, []⟩).items.getD idx []))
        (splitPath path) = .arr oldL) :
    (newL.length > oldL.length + 1 →
      (update_cell data sid idx path (.arr newL) none).2
        = .error .suspiciousArray) ∧
    ((newL.length = oldL.length ∨ newL.length = oldL.length + 1 ∨
        newL.length + 1 = oldL.length) →
      Jv.beqList oldL newL = false →
      ((update_cell data sid idx path (.arr newL) none).2).isOk = true) := by
  constructor
  · intro hlen
    have hbl : Jv.beqList oldL newL = false := by
      cases hb : Jv.beqList oldL newL
      · rfl
      · exact absurd (Jv.beqList_length hb) (by omega)
    have hbeqf : ¬ (Jv.beq (.arr oldL) (.arr newL) = true) := by
      simp only [Jv.beq]
      simp [hbl]
    have hsus : suspicious_array (Jv.arr oldL) (Jv.arr newL) = true := by
      simp only [suspicious_array]
      exact decide_eq_true hlen
    simp only [update_cell, hsec]
    rw [if_neg (show
      ¬ idx ≥ ((data.sections.getD i ⟨none, none, []⟩).items).length by omega)]
    rw [hold]
    rw [if_neg hbeqf, if_pos hsus]
  · intro hdisj hbl
    have hbeqf : ¬ (Jv.beq (.arr oldL) (.arr newL) = true) := by
      simp only [Jv.beq]
      simp [hbl]
    have hsus : ¬ (suspicious_array (Jv.arr oldL) (Jv.arr newL) = true) := by
      simp only [suspicious_array, decide_eq_true_eq]
      omega
    have hhint : ¬ (hintCheckFails none (productLower
        ((data.sections.getD i ⟨none, none, []⟩).items.getD idx [])) = true) := by
      simp [hintCheckFails]
    simp only [update_cell, hsec]
    rw [if_neg (show
      ¬ idx ≥ ((data.sections.getD i ⟨none, none, []⟩).items).length by omega)]
    rw [hold]
    rw [if_neg hbeqf, if_neg hsus, if_neg hhint]
    rfl

/-- C4 witness: on "sink"'s one-element replacement-URL list, a jump to
three elements is rejected, while a same-length replacement is accepted. -/
theorem C4_array_bound_witness :
    (update_cell dataSinkJ "s1" 0 "approvals.client.replacementUrls"
        (.arr [.str "a", .str "b", .str "c"]) none).2
      = .error .suspiciousArray ∧
    ((update_cell dataSinkJ "s1" 0 "approvals.client.replacementUrls"
        (.arr [.str "b"]) none).2).isOk = true :=
  ⟨(C4_array_bound dataSinkJ "s1" 0 "approvals.client.replacementUrls"
      [.str "a"] [.str "a", .str "b", .str "c"] 0 rfl (by decide) rfl).1
      (by decide),
   (C4_array_bound dataSinkJ "s1" 0 "approvals.client.replacementUrls"
      [.str "a"] [.str "b"] 0 rfl (by decide) rfl).2
      (by decide) rfl⟩

/-- The closed field-path vocabulary enumerated by the claim (spec §6). -/
def spec_field_path_vocab : List String :=
  ["product", "reference", "supplierLink", "laborType", "price.ttc",
   "price.htQuote",
   "approvals.client.status", "approvals.client.note",
   "approvals.client.validatedAt", "approvals.client.replacementUrls",
   "approvals.cray.status", "approvals.cray.note",
   "approvals.cray.validatedAt", "approvals.cray.replacementUrls",
   "order.ordered", "order.orderDate", "order.delivery", "order.quantity",
   "comments.client", "comments.cray"]

/-- C5 counterexample: "comments.boss" is outside the claimed vocabulary,
yet the database update accepts it and writes a comment row with the
unvalidated role "boss"; and in JSON mode the generic setter happily
creates the unknown path "frobnicate.x" instead of failing.  So unknown
paths are not uniformly rejected. -/
theorem C5_counterexample :
    "comments.boss" ∉ spec_field_path_vocab ∧
    update_item_field dbK "s1" 0 "comments.boss" (.str "hello") none
      = .ok { dbK with comments := [⟨1, some "boss", .str "hello"⟩] } ∧
    ({ dbK with comments := [⟨1, some "boss", .str "hello"⟩] } : Db).comments.length
      ≠ dbK.comments.length ∧
    ((update_cell dataBeeg "kitchen" 0 "frobnicate.x" (.str "y") none).2).isOk
      = true :=
  ⟨by decide, rfl, by decide, rfl⟩

/-- C5 amended: a field path whose first dot-segment is none of
`approvals`, `order`, `comments` and which is not one of the six scalar
paths fails with the unknown-field-path error (and, the commit happening
only on success, writes nothing); but the role segment under `comments`
(and under `approvals`) is not validated against {client, cray}, and the
JSON-mode path is written generically with no vocabulary check at all. -/
theorem C5_unknown_head_rejected
    (db : Db) (sid : String) (idx : Nat) (path : String) (v : Jv)
    (hint : Option String) (s : SectionRow)
    (hsec : db.sections.find? (fun s => s.id == sid) = some s)
    (hidx : idx < (sortById (db.items.filter (fun i => i.section_id == sid))).length)
    (hhint : hintCheckFails hint (prodLowerOf
        ((sortById (db.items.filter (fun i => i.section_id == sid))).getD idx
          ⟨0, sid, .null, .null, .null, none, .null, .null⟩).product) = false)
    (h1 : (splitPath path).headD "" ≠ "approvals")
    (h2 : (splitPath path).headD "" ≠ "order")
    (h3 : (splitPath path).headD "" ≠ "comments")
    (h4 : path ≠ "product") (h5 : path ≠ "reference")
    (h6 : path ≠ "supplierLink") (h7 : path ≠ "laborType")
    (h8 : path ≠ "price.ttc") (h9 : path ≠ "price.htQuote") :
    update_item_field db sid idx path v hint = .error .unknownFieldPath := by
  simp only [update_item_field, hsec]
  rw [if_neg (show
    ¬ idx ≥ (sortById (db.items.filter (fun i => i.section_id == sid))).length
    by omega)]
  rw [hhint]
  rw [if_neg (show ¬ (false = true) by decide)]
  rw [if_neg h1, if_neg h2, if_neg h3, if_neg h4, if_neg h5, if_neg h6,
      if_neg h7, if_neg h8, if_neg h9]

/-- C5 amended witness: the unknown head "frobnicate" is rejected on the
concrete store. -/
theorem C5_unknown_head_rejected_witness :
    update_item_field dbK "s1" 0 "frobnicate" (.str "x") none
      = .error .unknownFieldPath :=
  C5_unknown_head_rejected dbK "s1" 0 "frobnicate" (.str "x") none
    ⟨"s1", "Kitchen"⟩ rfl (by decide) rfl (by decide) (by decide) (by decide)
    (by decide) (by decide) (by decide) (by decide) (by decide) (by decide)

/-- The Order-record invariant stated by the claim (spec §3): the order
date is non-null exactly when the ordered flag is set. -/
def order_date_invariant (o : OrderRow) : Bool :=
  if o.ordered then !(Jv.beq o.order_date .null) else Jv.beq o.order_date .null

/-- C9 counterexample: `dbK` satisfies the order-date invariant
(`ordered = true` with a present date); the single-field update setting
`order.ordered` to false succeeds and leaves the date in place, producing a
store that violates the invariant.  The operation does not preserve the
claimed biconditional. -/
theorem C9_counterexample :
    dbK.orders.all order_date_invariant = true ∧
    update_item_field dbK "s1" 0 "order.ordered" (.bool false) none
      = .ok { dbK with orders := [⟨1, false, .str "2024-01-01", .null, none, .null⟩] } ∧
    ({ dbK with orders := [⟨1, false, .str "2024-01-01", .null, none, .null⟩] } : Db).orders.all
        order_date_invariant = false :=
  ⟨rfl, rfl, rfl⟩

/-- C9 amended: the order-field updates are componentwise only — updating
`order.ordered` stores the truthiness of the new value and leaves the
order date untouched, and updating `order.orderDate` stores the new date
and leaves the flag untouched; no code path re-establishes the
ordered/date biconditional, so it can be broken by a single update. -/
theorem C9_order_update_componentwise :
    (∀ (flag : Bool) (odate v : Jv),
      update_item_field (dbOrd flag odate) "s1" 0 "order.ordered" v none
        = .ok (dbOrd (truthy v) odate)) ∧
    (∀ (flag : Bool) (odate v : Jv),
      update_item_field (dbOrd flag odate) "s1" 0 "order.orderDate" v none
        = .ok (dbOrd flag v)) :=
  ⟨fun _ _ _ => rfl, fun _ _ _ => rfl⟩

end FranceRenov
